import Mathlib

/-
Verification of the node-red-contrib-mcp-server package.

The definitions below are shallow embeddings of the JavaScript sources:
  - the MCP client node (connect, disconnect, sendRequest, pendingRequests,
    scheduleReconnect, generateExampleParams),
  - the MCP flow server node (tool registry, the /mcp JSON-RPC dispatch,
    /health, executeToolFlow),
  - the MCP server supervisor node (startServer, the exit handler and
    onServerStarted restart bookkeeping).
Stateful code is modelled by explicit state passing; timers and inbound
messages are modelled as events of small transition systems, and the
side effects of a handler (callbacks invoked, timers cleared, channels
closed) are returned as explicit effect lists.
-/

/-- JSON-like runtime values as produced by the JavaScript code.  The undef
constructor models the JavaScript undefined value (for example the result of
indexing the first element of an empty array). -/
inductive JsonValue where
  | null
  | undef
  | bool (b : Bool)
  | num (n : Int)
  | str (s : String)
  | arr (elements : List JsonValue)
  | obj (fields : List (String × JsonValue))

/-- Field access on a JSON object; none models a missing field (undefined). -/
def jsonField (v : JsonValue) (key : String) : Option JsonValue :=
  match v with
  | JsonValue.obj fields => fields.lookup key
  | _ => none

/-- Injectivity of the string constructor, used to separate distinct
string-valued JSON fields. -/
theorem jsonStr_ne_of_ne {a b : String} (h : a ≠ b) :
    JsonValue.str a ≠ JsonValue.str b :=
  fun he => h (JsonValue.str.inj he)

/-- JavaScript string disjunction s or fallback: an absent or empty string is
falsy and selects the fallback. -/
def jsStringOr (s : Option String) (fallback : String) : String :=
  match s with
  | some v => if v = "" then fallback else v
  | none => fallback

/-- One property definition inside a tool input schema, holding exactly the
three fields the client code reads: type, enum and description.  Option
models an absent field. -/
structure SchemaProp where
  type : Option String
  enum : Option (List JsonValue)
  description : Option String

/-- A tool input schema as read by node.generateExampleParams: only the
properties field is consulted. -/
structure ToolSchema where
  properties : Option (List (String × SchemaProp))

/-- Translation of the per-property switch inside node.generateExampleParams
of the MCP client node.  A string property with an enum array takes the first
enum element (undefined when the enum array is empty); other strings take
their description or the example_string placeholder; number and integer take
123; boolean takes true; object takes an empty object; array takes an empty
array; every other type takes the description or the example_value
placeholder. -/
def exampleParamValue (p : SchemaProp) : JsonValue :=
  match p.type with
  | some "string" =>
      match p.enum with
      | some vs => vs.headD JsonValue.undef
      | none => JsonValue.str (jsStringOr p.description "example_string")
  | some "number" => JsonValue.num 123
  | some "integer" => JsonValue.num 123
  | some "boolean" => JsonValue.bool true
  | some "object" => JsonValue.obj []
  | some "array" => JsonValue.arr []
  | _ => JsonValue.str (jsStringOr p.description "example_value")

/-- Translation of node.generateExampleParams: a missing schema or a schema
without properties yields an empty example object; otherwise every property
is mapped through the per-property switch in order. -/
def generateExampleParams (schema : Option ToolSchema) : List (String × JsonValue) :=
  match schema with
  | none => []
  | some s =>
      match s.properties with
      | none => []
      | some props => props.map (fun p => (p.fst, exampleParamValue p.snd))

/-- The per-property mapping exactly as the claim words it: a string with an
enum takes the first enum value, another string takes its description or a
placeholder, number and integer take 123, boolean takes true, object takes an
empty object, array takes an empty array, and anything else takes a
placeholder with no description fallback. -/
def claimedExampleValue (p : SchemaProp) : JsonValue :=
  match p.type with
  | some "string" =>
      match p.enum with
      | some vs => vs.headD JsonValue.undef
      | none => JsonValue.str (jsStringOr p.description "example_string")
  | some "number" => JsonValue.num 123
  | some "integer" => JsonValue.num 123
  | some "boolean" => JsonValue.bool true
  | some "object" => JsonValue.obj []
  | some "array" => JsonValue.arr []
  | _ => JsonValue.str "example_value"

/-- The per-property mapping as amended: identical to the claimed mapping
except that a property of any unhandled type takes its description when one
is present, falling back to the placeholder only otherwise, mirroring the
default branch of the source switch. -/
def amendedExampleValue (p : SchemaProp) : JsonValue :=
  match p.type with
  | some "string" =>
      match p.enum with
      | some vs => vs.headD JsonValue.undef
      | none => JsonValue.str (jsStringOr p.description "example_string")
  | some "number" => JsonValue.num 123
  | some "integer" => JsonValue.num 123
  | some "boolean" => JsonValue.bool true
  | some "object" => JsonValue.obj []
  | some "array" => JsonValue.arr []
  | _ => JsonValue.str (jsStringOr p.description "example_value")

/-- Claim C7 counterexample: a property whose type is outside the handled set
and which carries a description is mapped to that description, not to a
placeholder, so the claimed per-property mapping disagrees with the code on
this schema. -/
theorem exampleParams_description_counterexample :
    generateExampleParams
        (some ⟨some [("p", ⟨some "custom", none, some "the custom identifier"⟩)]⟩)
      = [("p", JsonValue.str "the custom identifier")]
    ∧ claimedExampleValue ⟨some "custom", none, some "the custom identifier"⟩
      = JsonValue.str "example_value"
    ∧ JsonValue.str "the custom identifier" ≠ JsonValue.str "example_value" :=
  ⟨rfl, rfl, jsonStr_ne_of_ne (by decide)⟩

/-- Claim C7 as amended: example-parameter generation maps every schema
property through the amended per-property mapping (first enum value for
enumerated strings, description or placeholder for other strings, 123 for
number and integer, true for boolean, empty object and array for object and
array, and description or placeholder for anything else); in particular the
schema with a string property enumerating x and y and an integer property
yields exactly the object with a mapped to x and b mapped to 123. -/
theorem exampleParams_amended (schema : ToolSchema)
    (props : List (String × SchemaProp))
    (h : schema.properties = some props) :
    generateExampleParams (some schema)
      = props.map (fun p => (p.fst, amendedExampleValue p.snd))
    ∧ generateExampleParams
        (some ⟨some [("a", ⟨some "string", some [JsonValue.str "x", JsonValue.str "y"], none⟩),
                     ("b", ⟨some "integer", none, none⟩)]⟩)
      = [("a", JsonValue.str "x"), ("b", JsonValue.num 123)] := by
  constructor
  · simp only [generateExampleParams, h]
    apply List.map_congr_left
    intro p _
    cases p with
    | mk name pd =>
      simp only [exampleParamValue, amendedExampleValue]
  · rfl

/-- Witness for the amended claim C7 at the schema from the claim itself. -/
theorem exampleParams_amended_witness :
    generateExampleParams
        (some ⟨some [("a", ⟨some "string", some [JsonValue.str "x", JsonValue.str "y"], none⟩),
                     ("b", ⟨some "integer", none, none⟩)]⟩)
      = [("a", JsonValue.str "x"), ("b", JsonValue.num 123)] :=
  (exampleParams_amended
      ⟨some [("a", ⟨some "string", some [JsonValue.str "x", JsonValue.str "y"], none⟩),
             ("b", ⟨some "integer", none, none⟩)]⟩
      [("a", ⟨some "string", some [JsonValue.str "x", JsonValue.str "y"], none⟩),
       ("b", ⟨some "integer", none, none⟩)] rfl).2

/-- A registered tool definition: the three fields the flow server copies
into tools/list responses, plus nothing the claims depend on. -/
structure ToolDef where
  name : String
  description : String
  inputSchema : JsonValue

/-- The global tool registry of the flow server: a NodeCache keyed by tool
name, modelled as an association list. -/
abbrev ToolRegistry := List (String × ToolDef)

/-- NodeCache set: stores the value under the key, replacing any previous
entry for that key. -/
def registrySet (reg : ToolRegistry) (key : String) (t : ToolDef) : ToolRegistry :=
  (key, t) :: reg.filter (fun p => p.fst != key)

/-- NodeCache del: removes the entry stored under the key. -/
def registryDel (reg : ToolRegistry) (key : String) : ToolRegistry :=
  reg.filter (fun p => p.fst != key)

/-- NodeCache get: the value stored under the key, or undefined. -/
def registryGet (reg : ToolRegistry) (key : String) : Option ToolDef :=
  (reg.find? (fun p => p.fst == key)).map Prod.snd

/-- The keys method of the registry cache. -/
def registryKeys (reg : ToolRegistry) : List String :=
  reg.map Prod.fst

/-- The mcp-tool-register event handler: the definition is stored under its
own name. -/
def handleToolRegister (reg : ToolRegistry) (t : ToolDef) : ToolRegistry :=
  registrySet reg t.name t

/-- The mcp-tool-unregister event handler: the entry for the name is
removed. -/
def handleToolUnregister (reg : ToolRegistry) (name : String) : ToolRegistry :=
  registryDel reg name

/-- A JSON-RPC success envelope as assembled by the flow server. -/
def jsonRpcResult (reqId : JsonValue) (result : JsonValue) : JsonValue :=
  JsonValue.obj [("jsonrpc", JsonValue.str "2.0"), ("id", reqId), ("result", result)]

/-- A JSON-RPC error envelope as assembled by the flow server. -/
def jsonRpcError (reqId : JsonValue) (code : Int) (message : String) : JsonValue :=
  JsonValue.obj [("jsonrpc", JsonValue.str "2.0"), ("id", reqId),
    ("error", JsonValue.obj [("code", JsonValue.num code), ("message", JsonValue.str message)])]

/-- One entry of a tools/list response: the value-copied name, description
and input schema of a registered tool. -/
def toolEntryJson (t : ToolDef) : JsonValue :=
  JsonValue.obj [("name", JsonValue.str t.name),
    ("description", JsonValue.str t.description),
    ("inputSchema", t.inputSchema)]

/-- The tools array built by node.handleToolsList: every registry entry is
fetched by key and pushed. -/
def toolsListTools (reg : ToolRegistry) : List JsonValue :=
  reg.map (fun p => toolEntryJson p.snd)

/-- JavaScript truthiness on JSON values. -/
def jsTruthy : JsonValue → Bool
  | JsonValue.null => false
  | JsonValue.undef => false
  | JsonValue.bool b => b
  | JsonValue.num n => n != 0
  | JsonValue.str s => s != ""
  | JsonValue.arr _ => true
  | JsonValue.obj _ => true

/-- JavaScript params or empty object, as in the direct-tool-call handler. -/
def jsOrEmptyObj (v : JsonValue) : JsonValue :=
  if jsTruthy v then v else JsonValue.obj []

/-- The result envelope of the initialize method: fixed protocol version,
capabilities and server info. -/
def initResultEnvelope (serverName : String) : JsonValue :=
  JsonValue.obj
    [("protocolVersion", JsonValue.str "2024-11-05"),
     ("capabilities", JsonValue.obj [("tools", JsonValue.obj [("listChanged", JsonValue.bool true)])]),
     ("serverInfo", JsonValue.obj [("name", JsonValue.str serverName),
        ("version", JsonValue.str "1.0.0"),
        ("description", JsonValue.str "Node-RED MCP Flow Server")])]

/-- Outcome of one /mcp dispatch step: either an immediate JSON reply, or a
hand-off of a found tool to the asynchronous execution bridge, or an
exception thrown inside the handler, which the outer catch of the route
turns into an internal-error envelope with code -32603. -/
inductive DispatchResult where
  | reply (response : JsonValue)
  | toolCall (name : String) (args : JsonValue)
  | thrown

/-- A JSON-RPC request as read from the POST body: id, method and params. -/
structure McpRequest where
  id : JsonValue
  method : String
  params : JsonValue

/-- Translation of node.handleToolCall: request.params is destructured into
name and arguments and the name is looked up in the registry; a miss replies
with the tool-not-found error.  When the name field is not a string the
NodeCache lookup throws on the invalid key, which the outer catch converts
to an internal error. -/
def handleCallReq (reg : ToolRegistry) (reqId : JsonValue) (params : JsonValue) : DispatchResult :=
  match jsonField params "name" with
  | some (JsonValue.str name) =>
      (match registryGet reg name with
       | none => DispatchResult.reply (jsonRpcError reqId (-32602) ("Tool not found: " ++ name))
       | some _ => DispatchResult.toolCall name ((jsonField params "arguments").getD JsonValue.undef))
  | _ => DispatchResult.thrown

/-- Translation of node.handleDirectToolCall: the method name itself is the
tool name and the top-level params (or an empty object) are the arguments. -/
def handleDirectCallReq (reg : ToolRegistry) (reqId : JsonValue) (toolName : String)
    (params : JsonValue) : DispatchResult :=
  match registryGet reg toolName with
  | none => DispatchResult.reply (jsonRpcError reqId (-32602) ("Tool not found: " ++ toolName))
  | some _ => DispatchResult.toolCall toolName (jsOrEmptyObj params)

/-- The endsWith test of the dispatch guard, over the character lists of the
two strings; the suffix of interest is plain ASCII, where this agrees with
the JavaScript string method. -/
def jsEndsWith (s suffix : String) : Bool :=
  suffix.data.isSuffixOf s.data

/-- Translation of the /mcp route dispatch switch: tools/list, tools/call and
the initialize method are handled first, then any method name ending in the
direct-tool-call suffix, and every other method is answered with the
method-not-found error envelope.  An empty method name is falsy in the
JavaScript guard and also falls to the error branch. -/
def mcpDispatch (serverName : String) (reg : ToolRegistry) (req : McpRequest) : DispatchResult :=
  if req.method = "tools/list" then
    DispatchResult.reply (jsonRpcResult req.id (JsonValue.obj [("tools", JsonValue.arr (toolsListTools reg))]))
  else if req.method = "tools/call" then
    handleCallReq reg req.id req.params
  else if req.method = "initialize" then
    DispatchResult.reply (jsonRpcResult req.id (initResultEnvelope serverName))
  else if req.method != "" && jsEndsWith req.method "_tool" then
    handleDirectCallReq reg req.id req.method req.params
  else
    DispatchResult.reply (jsonRpcError req.id (-32601) ("Method not found: " ++ req.method))

/-- Translation of the /health endpoint handler.  The count field in the
response is named tools; its value is the length of the key array of the
registry (the handler applies Object.keys to that array, and Object.keys of
an array of n elements yields its n index strings). -/
def healthResponse (serverName : String) (uptime : Int) (reg : ToolRegistry) : JsonValue :=
  JsonValue.obj
    [("status", JsonValue.str "healthy"),
     ("server", JsonValue.str serverName),
     ("uptime", JsonValue.num uptime),
     ("tools", JsonValue.num (Int.ofNat (registryKeys reg).length))]

/-- Every entry surviving a registry deletion has a key different from the
deleted one. -/
theorem registryDel_fst_ne (reg : ToolRegistry) (k : String) :
    ∀ p ∈ registryDel reg k, p.fst ≠ k := by
  intro p hp
  have h2 := (List.mem_filter.mp hp).2
  simpa [bne_iff_ne] using h2

/-- Looking up a key right after deleting it misses. -/
theorem registryGet_del_self (reg : ToolRegistry) (k : String) :
    registryGet (registryDel reg k) k = none := by
  have hfind : (registryDel reg k).find? (fun p => p.fst == k) = none := by
    rw [List.find?_eq_none]
    intro p hp
    have h2 := registryDel_fst_ne reg k p hp
    simp [h2]
  simp [registryGet, hfind]

/-- Registration preserves the registry invariant that every entry is stored
under its own tool name. -/
theorem regWF_register (reg : ToolRegistry) (t : ToolDef)
    (hwf : ∀ p ∈ reg, p.snd.name = p.fst) :
    ∀ p ∈ handleToolRegister reg t, p.snd.name = p.fst := by
  intro p hp
  simp only [handleToolRegister, registrySet, List.mem_cons] at hp
  rcases hp with h | h
  · subst h; rfl
  · exact hwf p (List.mem_filter.mp h).1

/-- Unregistration preserves the registry invariant that every entry is
stored under its own tool name. -/
theorem regWF_unregister (reg : ToolRegistry) (k : String)
    (hwf : ∀ p ∈ reg, p.snd.name = p.fst) :
    ∀ p ∈ handleToolUnregister reg k, p.snd.name = p.fst := by
  intro p hp
  exact hwf p (List.mem_filter.mp hp).1

/-- A tools/call miss replies with the -32602 tool-not-found envelope. -/
theorem handleCallReq_not_found (reg : ToolRegistry) (reqId : JsonValue) (name : String)
    (args : JsonValue) (h : registryGet reg name = none) :
    handleCallReq reg reqId (JsonValue.obj [("name", JsonValue.str name), ("arguments", args)])
      = DispatchResult.reply (jsonRpcError reqId (-32602) ("Tool not found: " ++ name)) := by
  simp [handleCallReq, jsonField, List.lookup, h]

/-- Claim C4: a tool that has been registered and then unregistered is
invisible afterwards.  Under the registry invariant that entries are stored
under their own name, the tools/list array built after the unregister
contains no entry whose name field is the tool's name, and a subsequent
tools/call for that name via the /mcp dispatch replies with the -32602
tool-not-found error envelope. -/
theorem unregistered_tool_invisible (serverName : String) (reg : ToolRegistry)
    (t : ToolDef) (reqId args : JsonValue)
    (hwf : ∀ p ∈ reg, p.snd.name = p.fst) :
    (∀ v ∈ toolsListTools (handleToolUnregister (handleToolRegister reg t) t.name),
        jsonField v "name" ≠ some (JsonValue.str t.name))
    ∧ mcpDispatch serverName (handleToolUnregister (handleToolRegister reg t) t.name)
        ⟨reqId, "tools/call", JsonValue.obj [("name", JsonValue.str t.name), ("arguments", args)]⟩
      = DispatchResult.reply (jsonRpcError reqId (-32602) ("Tool not found: " ++ t.name)) := by
  constructor
  · intro v hv
    simp only [toolsListTools, List.mem_map] at hv
    obtain ⟨p, hp, rfl⟩ := hv
    have hne : p.fst ≠ t.name := registryDel_fst_ne _ _ p hp
    have hwf2 : p.snd.name = p.fst :=
      regWF_unregister _ _ (regWF_register reg t hwf) p hp
    have hfield : jsonField (toolEntryJson p.snd) "name" = some (JsonValue.str p.snd.name) := rfl
    rw [hfield]
    intro hcontra
    exact hne (hwf2.symm.trans (JsonValue.str.inj (Option.some.inj hcontra)))
  · have hget : registryGet (handleToolUnregister (handleToolRegister reg t) t.name) t.name = none :=
      registryGet_del_self _ _
    have hmd : mcpDispatch serverName (handleToolUnregister (handleToolRegister reg t) t.name)
        ⟨reqId, "tools/call", JsonValue.obj [("name", JsonValue.str t.name), ("arguments", args)]⟩
        = handleCallReq (handleToolUnregister (handleToolRegister reg t) t.name) reqId
            (JsonValue.obj [("name", JsonValue.str t.name), ("arguments", args)]) := rfl
    rw [hmd]
    exact handleCallReq_not_found _ _ _ _ hget

/-- Witness for claim C4 at a concrete tool on the empty registry. -/
theorem unregistered_tool_invisible_witness :
    (∀ v ∈ toolsListTools (handleToolUnregister
        (handleToolRegister [] ⟨"echo_tool", "demo tool", JsonValue.obj []⟩) "echo_tool"),
        jsonField v "name" ≠ some (JsonValue.str "echo_tool"))
    ∧ mcpDispatch "node-red-mcp-server"
        (handleToolUnregister (handleToolRegister [] ⟨"echo_tool", "demo tool", JsonValue.obj []⟩) "echo_tool")
        ⟨JsonValue.num 7, "tools/call",
          JsonValue.obj [("name", JsonValue.str "echo_tool"), ("arguments", JsonValue.obj [])]⟩
      = DispatchResult.reply (jsonRpcError (JsonValue.num 7) (-32602) "Tool not found: echo_tool") :=
  unregistered_tool_invisible "node-red-mcp-server" []
    ⟨"echo_tool", "demo tool", JsonValue.obj []⟩ (JsonValue.num 7) (JsonValue.obj [])
    (by intro p hp; cases hp)

/-- Claim C5: every /mcp request whose method is none of tools/list,
tools/call or the initialization method and does not end in the direct-tool
suffix is answered with the -32601 method-not-found envelope carrying the
request id and the method name. -/
theorem unknown_method_not_found (serverName : String) (reg : ToolRegistry) (req : McpRequest)
    (h1 : req.method ≠ "tools/list") (h2 : req.method ≠ "tools/call")
    (h3 : req.method ≠ "initialize")
    (h4 : jsEndsWith req.method "_tool" = false) :
    mcpDispatch serverName reg req
      = DispatchResult.reply (jsonRpcError req.id (-32601) ("Method not found: " ++ req.method)) := by
  simp [mcpDispatch, h1, h2, h3, h4]

/-- Witness for claim C5: the method nonexistent with id 2 yields exactly the
envelope from the claim. -/
theorem unknown_method_not_found_witness :
    mcpDispatch "node-red-mcp-server" [] ⟨JsonValue.num 2, "nonexistent", JsonValue.obj []⟩
      = DispatchResult.reply (JsonValue.obj
          [("jsonrpc", JsonValue.str "2.0"), ("id", JsonValue.num 2),
           ("error", JsonValue.obj [("code", JsonValue.num (-32601)),
              ("message", JsonValue.str "Method not found: nonexistent")])]) :=
  unknown_method_not_found "node-red-mcp-server" []
    ⟨JsonValue.num 2, "nonexistent", JsonValue.obj []⟩
    (by decide) (by decide) (by decide) (by decide)

/-- Claim C6 counterexample: the health response of a running server carries
no field named toolCount; the count is under the field named tools. -/
theorem health_toolCount_counterexample :
    jsonField (healthResponse "node-red-mcp-server" 0 []) "toolCount" = none
    ∧ jsonField (healthResponse "node-red-mcp-server" 0 []) "tools" = some (JsonValue.num 0) :=
  ⟨rfl, rfl⟩

/-- Claim C6 as amended: the health response is the object with status
healthy, the configured server name, the uptime, and the current number of
registered tools under the field named tools (not toolCount). -/
theorem health_response_amended (serverName : String) (uptime : Int) (reg : ToolRegistry) :
    healthResponse serverName uptime reg
      = JsonValue.obj
          [("status", JsonValue.str "healthy"),
           ("server", JsonValue.str serverName),
           ("uptime", JsonValue.num uptime),
           ("tools", JsonValue.num (Int.ofNat reg.length))]
    ∧ jsonField (healthResponse serverName uptime reg) "tools"
      = some (JsonValue.num (Int.ofNat reg.length))
    ∧ jsonField (healthResponse serverName uptime reg) "toolCount" = none := by
  refine ⟨?_, ?_, ?_⟩
  · simp [healthResponse, registryKeys]
  · simp [healthResponse, registryKeys, jsonField, List.lookup]
  · simp [healthResponse, registryKeys, jsonField, List.lookup]

/-- JavaScript split on a regular expression matching one-or-more whitespace
characters: maximal non-whitespace chunks, with one empty string added at a
boundary that starts or ends with whitespace, and a single empty string for
the empty input. -/
def jsSplitWs (s : String) : List String :=
  if s = "" then [""]
  else
    (if s.data.head?.elim false Char.isWhitespace then [""] else [])
      ++ (s.split Char.isWhitespace).filter (fun a => a != "")
      ++ (if s.data.getLast?.elim false Char.isWhitespace then [""] else [])

/-- The supervisor node state read and written by startServer, the exit
handler and onServerStarted.  hasProcess records whether serverProcess holds
a live child-process handle. -/
structure ServerNodeState where
  isRunning : Bool
  hasProcess : Bool
  serverType : String
  serverPath : String
  serverArgs : String
  serverPort : Nat
  serverName : String
  serverId : String

/-- The environment overlay added on top of process.env by the spawn call:
the chosen port, the logical server name and the generated instance id. -/
def envOverlay (s : ServerNodeState) : List (String × String) :=
  [("MCP_SERVER_PORT", toString s.serverPort),
   ("MCP_SERVER_NAME", s.serverName),
   ("NODE_RED_MCP_SERVER_ID", s.serverId)]

/-- Outcome of one node.startServer call: the already-running fast failure,
the missing-path configuration error of the python branch, or a spawn of the
given command with the given argument list and environment overlay. -/
inductive StartOutcome where
  | alreadyRunning
  | missingPath
  | spawned (command : String) (args : List String) (env : List (String × String))
deriving DecidableEq

/-- The extra arguments appended when serverArgs is a non-empty (truthy)
string: split on whitespace runs and filtered to non-empty tokens. -/
def extraArgs (s : ServerNodeState) : List String :=
  if s.serverArgs != "" then (jsSplitWs s.serverArgs).filter (fun a => a != "") else []

/-- Translation of node.startServer of the supervisor node.  The guard reads
only the isRunning flag, which is set by onServerStarted when a startup
marker is observed on stdout; the existence of a process handle is not
consulted.  The python branch requires a server path; the node branch runs
the path through the node command; any other type splits the path itself
into command and leading arguments. -/
def startServer (s : ServerNodeState) : StartOutcome :=
  if s.isRunning then
    StartOutcome.alreadyRunning
  else if s.serverType = "python" then
    if s.serverPath = "" then StartOutcome.missingPath
    else StartOutcome.spawned "python3" ([s.serverPath] ++ extraArgs s) (envOverlay s)
  else if s.serverType = "node" then
    StartOutcome.spawned "node" ([s.serverPath] ++ extraArgs s) (envOverlay s)
  else
    StartOutcome.spawned ((jsSplitWs s.serverPath).headD "")
      ((jsSplitWs s.serverPath).tail ++ extraArgs s) (envOverlay s)

/-- Claim C8 counterexample: in the starting window, a process handle exists
(a spawn occurred) but no startup marker has been observed, so isRunning is
still false; a second start call does not fail fast and spawns again. -/
theorem startServer_handle_counterexample :
    startServer ⟨false, true, "node", "server.js", "", 8000, "my-server", "instance-1"⟩
      = StartOutcome.spawned "node" ["server.js"]
          [("MCP_SERVER_PORT", "8000"), ("MCP_SERVER_NAME", "my-server"),
           ("NODE_RED_MCP_SERVER_ID", "instance-1")]
    ∧ startServer ⟨false, true, "node", "server.js", "", 8000, "my-server", "instance-1"⟩
      ≠ StartOutcome.alreadyRunning := by
  constructor
  · rfl
  · decide

/-- Claim C8 as amended: start fails fast with the already-running result
exactly when the observed-running flag is set (the mere existence of a
process handle does not block a start), and whenever start spawns, the spawn
carries the environment overlay with the chosen port, the server name and
the generated instance id. -/
theorem startServer_guard_amended (s : ServerNodeState) :
    (startServer s = StartOutcome.alreadyRunning ↔ s.isRunning = true)
    ∧ (∀ cmd args env, startServer s = StartOutcome.spawned cmd args env →
        env = envOverlay s) := by
  cases hrun : s.isRunning
  case true =>
    refine ⟨by simp [startServer, hrun], ?_⟩
    intro cmd args env h
    simp [startServer, hrun] at h
  case false =>
    constructor
    · simp only [startServer, hrun, Bool.false_eq_true, if_false]
      constructor
      · intro h
        split at h
        · split at h <;> simp_all
        · split at h <;> simp_all
      · intro h
        exact absurd h (by simp)
    · intro cmd args env h
      simp only [startServer, hrun, Bool.false_eq_true, if_false] at h
      split at h
      · split at h <;> simp_all
      · split at h <;> simp_all

/-- Witness for the amended claim C8: a running node fails fast, and a
concrete spawn carries the overlay. -/
theorem startServer_guard_amended_witness :
    startServer ⟨true, true, "node", "server.js", "", 8000, "my-server", "instance-1"⟩
      = StartOutcome.alreadyRunning
    ∧ [("MCP_SERVER_PORT", "8000"), ("MCP_SERVER_NAME", "my-server"),
       ("NODE_RED_MCP_SERVER_ID", "instance-1")]
      = envOverlay ⟨false, true, "node", "server.js", "", 8000, "my-server", "instance-1"⟩ :=
  ⟨(startServer_guard_amended ⟨true, true, "node", "server.js", "", 8000, "my-server", "instance-1"⟩).1.mpr rfl,
   (startServer_guard_amended ⟨false, true, "node", "server.js", "", 8000, "my-server", "instance-1"⟩).2
     "node" ["server.js"]
     [("MCP_SERVER_PORT", "8000"), ("MCP_SERVER_NAME", "my-server"),
      ("NODE_RED_MCP_SERVER_ID", "instance-1")] rfl⟩

/-- The supervisor bookkeeping touched by the exit handler and by
onServerStarted: the observed-running flag, the restart counter, the number
of restart attempts scheduled by the exit handler, and whether the terminal
exit event has been emitted. -/
structure SupervisorState where
  isRunning : Bool
  restartCount : Nat
  restartAttempts : Nat
  exitEmitted : Bool
deriving DecidableEq

/-- Events driving the supervisor bookkeeping: a process exit with its exit
code (none models a signal-terminated exit with a null code), and the
observation of a startup marker on stdout, which triggers
onServerStarted. -/
inductive SupervisorEvent where
  | procExit (code : Option Int)
  | startupMarker

/-- Translation of the exit handler and of onServerStarted.  On exit, the
running flag drops; a non-zero code under the restart budget increments the
counter and schedules one restart attempt, anything else settles terminally
and emits the exit event.  A startup marker sets the running flag and resets
the counter to zero. -/
def supStep (maxRestarts : Nat) (s : SupervisorState) : SupervisorEvent → SupervisorState
  | SupervisorEvent.procExit code =>
      if code ≠ some 0 ∧ s.restartCount < maxRestarts then
        { s with isRunning := false, restartCount := s.restartCount + 1,
                 restartAttempts := s.restartAttempts + 1 }
      else
        { s with isRunning := false, exitEmitted := true }
  | SupervisorEvent.startupMarker =>
      { s with isRunning := true, restartCount := 0 }

/-- Folding the supervisor bookkeeping over a list of events. -/
def runSup (maxRestarts : Nat) (s : SupervisorState) (es : List SupervisorEvent) : SupervisorState :=
  es.foldl (supStep maxRestarts) s

/-- The freshly constructed supervisor node: not running, zero restarts. -/
def supInit : SupervisorState := ⟨false, 0, 0, false⟩

/-- Claim C3: with a restart budget of two, three consecutive non-zero exits
with no startup marker in between perform exactly two restart attempts and
settle terminally with the exit event emitted; each non-zero exit under the
budget increments the counter by exactly one; the counter is reset to zero
only by the observed-startup signal; and once the counter has reached the
budget an exit schedules no further restart and is terminal. -/
theorem supervisor_restart_budget :
    runSup 2 supInit
        [SupervisorEvent.procExit (some 1), SupervisorEvent.procExit (some 1),
         SupervisorEvent.procExit (some 1)]
      = ⟨false, 2, 2, true⟩
    ∧ (∀ m : Nat, ∀ s : SupervisorState, ∀ code : Option Int,
        code ≠ some 0 → s.restartCount < m →
        supStep m s (SupervisorEvent.procExit code)
          = { s with isRunning := false, restartCount := s.restartCount + 1,
                     restartAttempts := s.restartAttempts + 1 })
    ∧ (∀ m : Nat, ∀ s : SupervisorState, ∀ e : SupervisorEvent,
        (supStep m s e).restartCount = 0 →
        s.restartCount = 0 ∨ e = SupervisorEvent.startupMarker)
    ∧ (∀ m : Nat, ∀ s : SupervisorState, ∀ code : Option Int,
        m ≤ s.restartCount →
        supStep m s (SupervisorEvent.procExit code)
          = { s with isRunning := false, exitEmitted := true }) := by
  refine ⟨by decide, ?_, ?_, ?_⟩
  · intro m s code h1 h2
    simp only [supStep]
    rw [if_pos ⟨h1, h2⟩]
  · intro m s e h
    cases e with
    | procExit code =>
        simp only [supStep] at h
        split at h
        · exact absurd h (Nat.succ_ne_zero _)
        · exact Or.inl h
    | startupMarker => exact Or.inr rfl
  · intro m s code h
    simp only [supStep]
    rw [if_neg]
    intro hc
    exact absurd hc.2 (Nat.not_lt.mpr h)

/-- Witness for claim C3: a first non-zero exit under the budget increments
the counter from zero to one and schedules one attempt. -/
theorem supervisor_restart_budget_witness :
    supStep 2 supInit (SupervisorEvent.procExit (some 1)) = ⟨false, 1, 1, false⟩
    ∧ supStep 2 ⟨false, 2, 2, false⟩ (SupervisorEvent.procExit (some 1)) = ⟨false, 2, 2, true⟩ :=
  ⟨supervisor_restart_budget.2.1 2 supInit (some 1) (by decide) (by decide),
   supervisor_restart_budget.2.2.2 2 ⟨false, 2, 2, false⟩ (some 1) (by decide)⟩

/-- The client node state touched by disconnect and by the request paths:
the connected flag, whether node.connection holds a live channel object, the
configured transport, whether a reconnect timer is pending, and the ids in
the pendingRequests map. -/
structure ClientState where
  isConnected : Bool
  hasConnection : Bool
  connectionType : String
  reconnectTimerSet : Bool
  pendingRequests : List String
deriving DecidableEq

/-- Observable side effects of the client handlers: cancelling the reconnect
timer, closing the channel (with the close code used for websockets),
cancelling the armed timeout of one pending request, invoking one pending
request's stored callback with an error message, and invoking the callback
of the command itself. -/
inductive ClientEffect where
  | cancelReconnectTimer
  | closeChannel (closeCode : Option Nat)
  | cancelRequestTimeout (requestId : String)
  | requestCallbackError (requestId : String) (message : String)
  | commandCallback (success : Bool) (message : String)
deriving DecidableEq

/-- Translation of node.disconnect.  A node that is not connected returns at
once.  Otherwise the reconnect timer is cleared if pending, the channel is
closed with transport-appropriate semantics and nulled, the connected flag
drops, and then every pending request has only its armed timeout cleared
before the whole pending map is cleared: the stored per-request callbacks
are discarded without being invoked. -/
def disconnect (s : ClientState) : ClientState × List ClientEffect :=
  if !s.isConnected then
    (s, [ClientEffect.commandCallback true "Already disconnected"])
  else
    let timerEffects :=
      if s.reconnectTimerSet then [ClientEffect.cancelReconnectTimer] else []
    let closeEffects :=
      if s.hasConnection then
        if s.connectionType = "sse" then [ClientEffect.closeChannel none]
        else if s.connectionType = "websocket" then [ClientEffect.closeChannel (some 1000)]
        else []
      else []
    let pendingEffects := s.pendingRequests.map ClientEffect.cancelRequestTimeout
    ({ s with isConnected := false, hasConnection := false,
              reconnectTimerSet := false, pendingRequests := [] },
     timerEffects ++ closeEffects ++ pendingEffects
       ++ [ClientEffect.commandCallback true "Disconnected"])

/-- Translation of the timeout handler armed by sendRequest over websocket:
when the armed timeout fires, the pending entry is removed and the stored
caller callback is invoked with the request-timeout error.  This is the path
the pending callbacks would take if disconnect fired them, which it does
not. -/
def requestTimeoutFire (s : ClientState) (requestId : String) : ClientState × List ClientEffect :=
  ({ s with pendingRequests := s.pendingRequests.erase requestId },
   [ClientEffect.requestCallbackError requestId "Request timeout"])

/-- Claim C1 counterexample: disconnecting a connected websocket session with
three pending requests clears the pending table and cancels each pending
timeout, but invokes none of the three pending callbacks with any error: the
effect list contains no per-request error callback at all. -/
theorem disconnect_counterexample :
    (disconnect ⟨true, true, "websocket", false, ["r1", "r2", "r3"]⟩).1.pendingRequests = []
    ∧ (disconnect ⟨true, true, "websocket", false, ["r1", "r2", "r3"]⟩).2
      = [ClientEffect.closeChannel (some 1000),
         ClientEffect.cancelRequestTimeout "r1", ClientEffect.cancelRequestTimeout "r2",
         ClientEffect.cancelRequestTimeout "r3", ClientEffect.commandCallback true "Disconnected"]
    ∧ ((disconnect ⟨true, true, "websocket", false, ["r1", "r2", "r3"]⟩).2.filter
        (fun e => match e with
          | ClientEffect.requestCallbackError _ _ => true
          | _ => false)) = [] := by
  decide

/-- Claim C1 as amended: disconnecting a connected session cancels any
reconnect timer, closes the live channel, cancels the armed timeout of every
pending request and clears the pending table to empty, and leaves the
session disconnected; the pending callbacks are not invoked with any
timeout or not-connected error but silently dropped. -/
theorem disconnect_amended (s : ClientState) (h : s.isConnected = true) :
    (disconnect s).1.isConnected = false
    ∧ (disconnect s).1.pendingRequests = []
    ∧ (disconnect s).1.reconnectTimerSet = false
    ∧ (disconnect s).1.hasConnection = false
    ∧ (∀ rid ∈ s.pendingRequests, ClientEffect.cancelRequestTimeout rid ∈ (disconnect s).2)
    ∧ (∀ rid msg, ClientEffect.requestCallbackError rid msg ∉ (disconnect s).2) := by
  have hd2 : (disconnect s).2
      = (if s.reconnectTimerSet then [ClientEffect.cancelReconnectTimer] else [])
        ++ (if s.hasConnection then
              (if s.connectionType = "sse" then [ClientEffect.closeChannel none]
               else if s.connectionType = "websocket" then [ClientEffect.closeChannel (some 1000)]
               else [])
             else [])
        ++ s.pendingRequests.map ClientEffect.cancelRequestTimeout
        ++ [ClientEffect.commandCallback true "Disconnected"] := by
    simp only [disconnect, h, Bool.not_true, Bool.false_eq_true, if_false]
  refine ⟨by simp [disconnect, h], by simp [disconnect, h], by simp [disconnect, h],
          by simp [disconnect, h], ?_, ?_⟩
  · intro rid hr
    rw [hd2]
    exact List.mem_append_left _ (List.mem_append_right _ (List.mem_map_of_mem _ hr))
  · intro rid msg hmem
    rw [hd2] at hmem
    rcases List.mem_append.mp hmem with h12 | h4
    rcases List.mem_append.mp h12 with h12a | h3
    rcases List.mem_append.mp h12a with h1 | h2
    · split at h1 <;> simp_all
    · split at h2
      · split at h2 <;> simp_all
      · simp_all
    · rcases List.mem_map.mp h3 with ⟨x, hx1, hx⟩
      cases hx
    · simp_all

/-- Witness for the amended claim C1 at a connected websocket session with
one pending request and a pending reconnect timer. -/
theorem disconnect_amended_witness :
    (disconnect ⟨true, true, "websocket", true, ["a1"]⟩).1.pendingRequests = []
    ∧ (∀ rid msg, ClientEffect.requestCallbackError rid msg
        ∉ (disconnect ⟨true, true, "websocket", true, ["a1"]⟩).2) :=
  ⟨(disconnect_amended ⟨true, true, "websocket", true, ["a1"]⟩ rfl).2.1,
   (disconnect_amended ⟨true, true, "websocket", true, ["a1"]⟩ rfl).2.2.2.2.2⟩

/-- The client connection state relevant to the single-connection and
single-reconnect-timer invariants: the connected flag, how many low-level
channel objects have been created and not closed, whether a reconnect timer
is pending, and the configured transport. -/
structure ConnState where
  isConnected : Bool
  liveConnections : Nat
  reconnectTimerSet : Bool
  connectionType : String
deriving DecidableEq

/-- Translation of node.connect for one attempt.  An already-connected node
returns at once.  Otherwise the streaming strategies assign a brand-new
EventSource or WebSocket object to node.connection, overwriting any previous
object without closing it, so each such call adds one live connection; the
connected flag is set only later inside the asynchronous open callback.  The
http strategy performs a point-in-time health probe and creates no
persistent connection object. -/
def connectAttempt (s : ConnState) : ConnState :=
  if s.isConnected then s
  else if s.connectionType = "sse" ∨ s.connectionType = "websocket" then
    { s with liveConnections := s.liveConnections + 1 }
  else s

/-- Translation of node.scheduleReconnect: an early return when a reconnect
timer is already pending, otherwise one timer is armed. -/
def scheduleReconnect (s : ConnState) : ConnState :=
  if s.reconnectTimerSet then s else { s with reconnectTimerSet := true }

/-- Claim C10 counterexample: on a session that is still connecting (first
connect issued, open callback not yet fired, so the connected flag is still
false), a second connect creates a second simultaneous live EventSource, so
two live low-level connection objects exist at once. -/
theorem double_connect_counterexample :
    (connectAttempt (connectAttempt ⟨false, 0, false, "sse"⟩)).liveConnections = 2
    ∧ ¬ (connectAttempt (connectAttempt ⟨false, 0, false, "sse"⟩)).liveConnections ≤ 1 := by
  decide

/-- Claim C10 as amended: connect is a no-op on an already-connected session,
at most one reconnect timer is ever pending (scheduling is idempotent and a
pending timer is never duplicated), but while the session is merely
connecting a further connect adds one more simultaneous live connection
object instead of being blocked. -/
theorem single_connection_amended (s : ConnState) :
    (s.isConnected = true → connectAttempt s = s)
    ∧ scheduleReconnect (scheduleReconnect s) = scheduleReconnect s
    ∧ (s.reconnectTimerSet = true → scheduleReconnect s = s)
    ∧ (s.isConnected = false →
        (s.connectionType = "sse" ∨ s.connectionType = "websocket") →
        (connectAttempt s).liveConnections = s.liveConnections + 1) := by
  refine ⟨?_, ?_, ?_, ?_⟩
  · intro h
    simp [connectAttempt, h]
  · by_cases ht : s.reconnectTimerSet = true
    · simp [scheduleReconnect, ht]
    · simp [scheduleReconnect, ht]
  · intro ht
    simp [scheduleReconnect, ht]
  · intro h1 h2
    simp [connectAttempt, h1, h2]

/-- Witness for the amended claim C10 at a disconnected SSE session. -/
theorem single_connection_amended_witness :
    connectAttempt ⟨true, 1, false, "sse"⟩ = ⟨true, 1, false, "sse"⟩
    ∧ scheduleReconnect (scheduleReconnect ⟨false, 0, false, "sse"⟩)
      = scheduleReconnect ⟨false, 0, false, "sse"⟩
    ∧ (connectAttempt ⟨false, 0, false, "sse"⟩).liveConnections = 1 :=
  ⟨(single_connection_amended ⟨true, 1, false, "sse"⟩).1 rfl,
   (single_connection_amended ⟨false, 0, false, "sse"⟩).2.1,
   (single_connection_amended ⟨false, 0, false, "sse"⟩).2.2.2 rfl (Or.inl rfl)⟩

/-- Events on one streaming session that touch the pendingRequests map: a
sendRequest registering a fresh request id with an armed timeout, an inbound
frame parsed with some id, or the armed timeout of a pending id firing. -/
inductive SessEvent where
  | send (rid : String)
  | recv (rid : String)
  | fire (rid : String)

/-- Transition of the pending id list.  sendRequest inserts the id; an
inbound frame whose id is pending clears that entry's timeout and deletes it
(a frame with no matching pending id leaves the map alone, which erase also
does); a firing timeout deletes its own entry. -/
def sessStep (pending : List String) : SessEvent → List String
  | SessEvent.send rid => rid :: pending
  | SessEvent.recv rid => pending.erase rid
  | SessEvent.fire rid => pending.erase rid

/-- Validity of one event against the current map: sendRequest ids are
freshly generated uuids and therefore never already pending; inbound frames
may carry any id; a timeout can fire only for an id that is still pending,
because the inbound path runs clearTimeout exactly when it deletes the
entry, and a fired timer never fires again. -/
def sessEventValid (pending : List String) : SessEvent → Bool
  | SessEvent.send rid => decide (rid ∉ pending)
  | SessEvent.recv _ => true
  | SessEvent.fire rid => decide (rid ∈ pending)

/-- A trace is valid when every event is valid in the state it encounters. -/
def validSessTrace (pending : List String) : List SessEvent → Bool
  | [] => true
  | e :: es => sessEventValid pending e && validSessTrace (sessStep pending e) es

/-- Number of removals of the entry for one id along a trace: an inbound
frame removes it exactly when the id is currently pending (the response is
then delivered tagged with that request id), and a firing timeout removes it
(the caller is then resolved with the timeout error). -/
def removalCountFor (rid : String) (pending : List String) : List SessEvent → Nat
  | [] => 0
  | e :: es =>
      (match e with
       | SessEvent.recv r => if r = rid ∧ r ∈ pending then 1 else 0
       | SessEvent.fire r => if r = rid then 1 else 0
       | SessEvent.send _ => 0)
      + removalCountFor rid (sessStep pending e) es

/-- Number of sendRequest registrations of one id along a trace. -/
def sendCountFor (rid : String) : List SessEvent → Nat
  | [] => 0
  | e :: es =>
      (match e with
       | SessEvent.send r => if r = rid then 1 else 0
       | _ => 0)
      + sendCountFor rid es

/-- Claim C2: along any valid session trace, the pending entry of each
request id is removed at most once per registration: the total number of
removals of that id (by a matching inbound frame, which clears the armed
timeout, or by the timeout firing) never exceeds the number of times the id
was registered plus its initial multiplicity; in particular an id registered
exactly once from an empty map is removed at most once, so the matching
response and the timeout are mutually exclusive and no entry is ever removed
twice. -/
theorem pending_removed_exactly_once (rid : String) :
    (∀ (tr : List SessEvent) (pending : List String),
        validSessTrace pending tr = true →
        removalCountFor rid pending tr ≤ sendCountFor rid tr + pending.count rid)
    ∧ (∀ tr : List SessEvent,
        validSessTrace [] tr = true → sendCountFor rid tr ≤ 1 →
        removalCountFor rid [] tr ≤ 1) := by
  have main : ∀ (tr : List SessEvent) (pending : List String),
      validSessTrace pending tr = true →
      removalCountFor rid pending tr ≤ sendCountFor rid tr + pending.count rid := by
    intro tr
    induction tr with
    | nil =>
        intro pending _
        simp [removalCountFor, sendCountFor]
    | cons e es ih =>
        intro pending hv
        simp only [validSessTrace, Bool.and_eq_true] at hv
        obtain ⟨hve, hvt⟩ := hv
        cases e with
        | send r =>
            have h2 := ih (sessStep pending (SessEvent.send r)) hvt
            simp only [sessStep] at h2
            have hrem : removalCountFor rid pending (SessEvent.send r :: es)
                = removalCountFor rid (r :: pending) es := by
              simp [removalCountFor, sessStep]
            by_cases hr : r = rid
            · subst hr
              have hsend : sendCountFor r (SessEvent.send r :: es)
                  = 1 + sendCountFor r es := by
                simp [sendCountFor]
              have hc : (r :: pending).count r = pending.count r + 1 :=
                List.count_cons_self r pending
              rw [hrem, hsend]
              omega
            · have hsend : sendCountFor rid (SessEvent.send r :: es)
                  = sendCountFor rid es := by
                simp [sendCountFor, hr]
              have hc : (r :: pending).count rid = pending.count rid :=
                List.count_cons_of_ne (fun hh => hr hh.symm) pending
              rw [hrem, hsend]
              omega
        | recv r =>
            have h2 := ih (sessStep pending (SessEvent.recv r)) hvt
            simp only [sessStep] at h2
            have hsend : sendCountFor rid (SessEvent.recv r :: es)
                = sendCountFor rid es := by
              simp [sendCountFor]
            by_cases hr : r = rid
            · subst hr
              by_cases hmem : r ∈ pending
              · have hrem : removalCountFor r pending (SessEvent.recv r :: es)
                    = 1 + removalCountFor r (pending.erase r) es := by
                  simp [removalCountFor, sessStep, hmem]
                have hc : (pending.erase r).count r = pending.count r - 1 :=
                  List.count_erase_self r pending
                have hpos : 0 < pending.count r := List.count_pos_iff.mpr hmem
                rw [hrem, hsend]
                omega
              · have hrem : removalCountFor r pending (SessEvent.recv r :: es)
                    = removalCountFor r (pending.erase r) es := by
                  simp [removalCountFor, sessStep, hmem]
                have hc : pending.erase r = pending := List.erase_of_not_mem hmem
                rw [hrem, hsend, hc]
                rw [hc] at h2
                omega
            · have hrem : removalCountFor rid pending (SessEvent.recv r :: es)
                  = removalCountFor rid (pending.erase r) es := by
                simp [removalCountFor, sessStep, hr]
              have hc : (pending.erase r).count rid = pending.count rid :=
                List.count_erase_of_ne (fun hh => hr hh.symm) pending
              rw [hrem, hsend]
              omega
        | fire r =>
            have hmem : r ∈ pending := of_decide_eq_true hve
            have h2 := ih (sessStep pending (SessEvent.fire r)) hvt
            simp only [sessStep] at h2
            have hsend : sendCountFor rid (SessEvent.fire r :: es)
                = sendCountFor rid es := by
              simp [sendCountFor]
            by_cases hr : r = rid
            · subst hr
              have hrem : removalCountFor r pending (SessEvent.fire r :: es)
                  = 1 + removalCountFor r (pending.erase r) es := by
                simp [removalCountFor, sessStep]
              have hc : (pending.erase r).count r = pending.count r - 1 :=
                List.count_erase_self r pending
              have hpos : 0 < pending.count r := List.count_pos_iff.mpr hmem
              rw [hrem, hsend]
              omega
            · have hrem : removalCountFor rid pending (SessEvent.fire r :: es)
                  = removalCountFor rid (pending.erase r) es := by
                simp [removalCountFor, sessStep, hr]
              have hc : (pending.erase r).count rid = pending.count rid :=
                List.count_erase_of_ne (fun hh => hr hh.symm) pending
              rw [hrem, hsend]
              omega
  refine ⟨main, ?_⟩
  intro tr hv hsend
  have h := main tr [] hv
  simpa using Nat.le_trans h (by simpa using hsend)

/-- Witness for claim C2 at a concrete valid trace: one registration, the
matching response removes the entry, and a later frame with the same id no
longer matches anything. -/
theorem pending_removed_exactly_once_witness :
    removalCountFor "r1" []
        [SessEvent.send "r1", SessEvent.recv "r1", SessEvent.recv "r1"] ≤ 1 :=
  (pending_removed_exactly_once "r1").2
    [SessEvent.send "r1", SessEvent.recv "r1", SessEvent.recv "r1"]
    (by decide) (by decide)

/-- State of the promise returned by executeToolFlow: unsettled, resolved
with a result value, or rejected with an error message. -/
inductive PromiseState where
  | pending
  | resolved (v : JsonValue)
  | rejected (e : String)

/-- Resolving a promise: a no-op once it is already settled, as guaranteed by
the promise semantics of the host runtime. -/
def settleResolve (p : PromiseState) (v : JsonValue) : PromiseState :=
  match p with
  | PromiseState.pending => PromiseState.resolved v
  | _ => p

/-- Rejecting a promise: a no-op once it is already settled. -/
def settleReject (p : PromiseState) (e : String) : PromiseState :=
  match p with
  | PromiseState.pending => PromiseState.rejected e
  | _ => p

/-- The per-execution state of one executeToolFlow call: its promise, whether
the armed 30 second timeout is still pending, and whether the correlation
listener is still attached to the node input. -/
structure ExecFlowState where
  promise : PromiseState
  timerArmed : Bool
  listenerAttached : Bool

/-- Events that can reach one execution: its armed timeout firing, or an
input message with a topic, a carried executionId, an optional error string
and a result payload. -/
inductive ExecEvent where
  | timeoutFire
  | inputMsg (topic : String) (executionId : String) (payloadError : Option String)
      (result : JsonValue)

/-- Translation of the two callbacks set up by node.executeToolFlow.  The
timeout rejects with the fixed tool-execution-timeout message and does not
remove the listener.  The response handler acts only while the listener is
attached and only on a message whose topic is the tool-response topic and
whose executionId equals this execution's id; it then clears the timeout,
removes itself and rejects with the carried error message when that is
truthy, otherwise resolves with the carried result. -/
def execStep (myId : String) (s : ExecFlowState) : ExecEvent → ExecFlowState
  | ExecEvent.timeoutFire =>
      { s with promise := settleReject s.promise "Tool execution timeout",
               timerArmed := false }
  | ExecEvent.inputMsg topic execId err res =>
      if s.listenerAttached = true ∧ topic = "mcp-tool-response" ∧ execId = myId then
        { promise :=
            (match err with
             | some m => if m = "" then settleResolve s.promise res else settleReject s.promise m
             | none => settleResolve s.promise res),
          timerArmed := false,
          listenerAttached := false }
      else s

/-- Folding one execution's state over a list of events. -/
def runExec (myId : String) (s : ExecFlowState) (es : List ExecEvent) : ExecFlowState :=
  es.foldl (execStep myId) s

/-- The state of an execution right after executeToolFlow arms the timeout
and attaches the correlation listener. -/
def execInit : ExecFlowState := ⟨PromiseState.pending, true, true⟩

/-- A settled promise is never resolved again. -/
theorem settleResolve_of_settled (p : PromiseState) (v : JsonValue)
    (h : p ≠ PromiseState.pending) : settleResolve p v = p := by
  cases p <;> simp_all [settleResolve]

/-- A settled promise is never rejected again. -/
theorem settleReject_of_settled (p : PromiseState) (e : String)
    (h : p ≠ PromiseState.pending) : settleReject p e = p := by
  cases p <;> simp_all [settleReject]

/-- No single event changes an already settled promise. -/
theorem execStep_promise_stable (myId : String) (s : ExecFlowState) (e : ExecEvent)
    (h : s.promise ≠ PromiseState.pending) :
    (execStep myId s e).promise = s.promise := by
  cases e with
  | timeoutFire => simp [execStep, settleReject_of_settled _ _ h]
  | inputMsg topic execId err res =>
      simp only [execStep]
      split
      · cases err with
        | none => simp [settleResolve_of_settled _ _ h]
        | some m =>
            by_cases hm : m = "" <;>
              simp [hm, settleResolve_of_settled _ _ h, settleReject_of_settled _ _ h]
      · rfl

/-- Claim C9: the promise of one executeToolFlow call settles exactly once.
Once settled, no sequence of later events (a late timeout or a late
correlated response) changes the outcome; while still pending, a firing
timeout rejects with the fixed tool-execution-timeout message; while still
pending with the listener attached, a correlated response carrying the same
executionId resolves with the carried result, or rejects with the carried
error message when one is present, and in both cases clears the timeout and
detaches the listener so the other path becomes a no-op. -/
theorem executeToolFlow_single_settlement (myId : String) :
    (∀ (es : List ExecEvent) (s : ExecFlowState), s.promise ≠ PromiseState.pending →
        (runExec myId s es).promise = s.promise)
    ∧ (∀ s : ExecFlowState, s.promise = PromiseState.pending →
        (execStep myId s ExecEvent.timeoutFire).promise
          = PromiseState.rejected "Tool execution timeout")
    ∧ (∀ (s : ExecFlowState) (res : JsonValue),
        s.promise = PromiseState.pending → s.listenerAttached = true →
        execStep myId s (ExecEvent.inputMsg "mcp-tool-response" myId none res)
          = ⟨PromiseState.resolved res, false, false⟩)
    ∧ (∀ (s : ExecFlowState) (res : JsonValue) (m : String),
        m ≠ "" → s.promise = PromiseState.pending → s.listenerAttached = true →
        execStep myId s (ExecEvent.inputMsg "mcp-tool-response" myId (some m) res)
          = ⟨PromiseState.rejected m, false, false⟩) := by
  refine ⟨?_, ?_, ?_, ?_⟩
  · intro es
    induction es with
    | nil => intro s h; rfl
    | cons e es ih =>
        intro s h
        have h1 := execStep_promise_stable myId s e h
        have h2 : (execStep myId s e).promise ≠ PromiseState.pending := by
          rw [h1]; exact h
        calc (runExec myId s (e :: es)).promise
            = (runExec myId (execStep myId s e) es).promise := rfl
          _ = (execStep myId s e).promise := ih _ h2
          _ = s.promise := h1
  · intro s h
    simp [execStep, h, settleReject]
  · intro s res h hl
    simp [execStep, hl, h, settleResolve]
  · intro s res m hm h hl
    simp [execStep, hl, h, hm, settleReject]

/-- Witness for claim C9: from the armed initial state the timeout path
rejects with the fixed message; a late matching response after a settlement
leaves the outcome unchanged; a first matching response resolves with its
result. -/
theorem executeToolFlow_single_settlement_witness :
    (runExec "ex1" ⟨PromiseState.rejected "Tool execution timeout", false, true⟩
        [ExecEvent.inputMsg "mcp-tool-response" "ex1" none (JsonValue.str "late")]).promise
      = PromiseState.rejected "Tool execution timeout"
    ∧ (execStep "ex1" execInit ExecEvent.timeoutFire).promise
      = PromiseState.rejected "Tool execution timeout"
    ∧ execStep "ex1" execInit
        (ExecEvent.inputMsg "mcp-tool-response" "ex1" none (JsonValue.str "ok"))
      = ⟨PromiseState.resolved (JsonValue.str "ok"), false, false⟩ :=
  ⟨(executeToolFlow_single_settlement "ex1").1
      [ExecEvent.inputMsg "mcp-tool-response" "ex1" none (JsonValue.str "late")]
      ⟨PromiseState.rejected "Tool execution timeout", false, true⟩ (by simp),
   (executeToolFlow_single_settlement "ex1").2.1 execInit rfl,
   (executeToolFlow_single_settlement "ex1").2.2.1 execInit (JsonValue.str "ok") rfl rfl⟩
